import Mathlib

/-!
Shallow embedding of the Readwise Reader MCP client core
(src/readwise-client.ts and src/handlers/document-handlers.ts).

Conventions of the embedding:
* JavaScript strings are Lean `String`s; an absent or undefined string field
  is modelled as `""` exactly where the source only ever tests it for
  truthiness (JS `''` and `undefined` are both falsy there).
* Optional fields whose presence matters are `Option _`; JS truthiness of
  such fields is made explicit by the `truthy*` helpers below.
* Machine integers are `Nat` (all quantities involved are non-negative
  counters, millisecond delays and HTTP status codes); `Date` values are
  modelled as integer timestamps, faithful because the source only ever
  compares them with `>`.
* The network is a parameter: `makeRequest` takes the sequence of HTTP
  responses (`fetch` indexed by attempt number), the list-documents layer
  takes a `server : ListDocumentsParams → ListDocumentsResponse`, and the
  content converters (`convertUrlToText`, `extractTextFromHtml`) are
  function parameters.
* `async`/`await` sequencing is modelled by sequential evaluation; the
  realized waits of the retry loop are returned as data (a list of
  millisecond values) instead of being slept, and the list of request
  parameter sets issued over the wire is returned as a trace.
-/

/-- Structure `RetryConfig` from readwise-client.ts (lines 13-17). -/
structure RetryConfig where
  maxRetries : Nat
  baseDelayMs : Nat
  maxDelayMs : Nat
  deriving DecidableEq, Repr

/-- Constant `DEFAULT_RETRY_CONFIG` from readwise-client.ts (lines 19-23). -/
def DEFAULT_RETRY_CONFIG : RetryConfig :=
  { maxRetries := 3, baseDelayMs := 1000, maxDelayMs := 60000 }

/-- One HTTP response as seen by `makeRequest`.  `retryAfter` is the parsed
`Retry-After` header (`none` when the header is absent); `payload` is the
decoded JSON body that `response.json()` would produce. -/
structure HttpResponse (α : Type) where
  status : Nat
  statusText : String
  bodyText : String
  retryAfter : Option Nat
  payload : α
  deriving DecidableEq, Repr

/-- Field `response.ok` of the fetch API: status in the 2xx range. -/
def HttpResponse.ok {α : Type} (r : HttpResponse α) : Bool :=
  decide (200 ≤ r.status ∧ r.status < 300)

/-- Outcome of `makeRequest`: a decoded payload (`success none` models the
`undefined as T` returned for a 204 response, where the body is never
decoded), a thrown rate-limit error (carrying its message), or a thrown
API error carrying status code, status text and response body text. -/
inductive MakeResult (α : Type) where
  | success : Option α → MakeResult α
  | rateLimited : String → MakeResult α
  | apiError : Nat → String → String → MakeResult α
  deriving DecidableEq, Repr

/-- Expression `retryAfter ? parseInt(retryAfter, 10) : 60` (readwise-client.ts line 67). -/
def retrySecs {α : Type} (r : HttpResponse α) : Nat :=
  r.retryAfter.getD 60

/-- Expression `exponentialDelay = Math.min(baseDelayMs * Math.pow(2, attempt), maxDelayMs)`
(readwise-client.ts lines 70-73). -/
def expDelay (cfg : RetryConfig) (attempt : Nat) : Nat :=
  min (cfg.baseDelayMs * 2 ^ attempt) cfg.maxDelayMs

/-- Expression `actualDelay = Math.max(Math.min(retryAfterSeconds * 1000, maxDelayMs), exponentialDelay)`
(readwise-client.ts lines 74-75). -/
def waitTime {α : Type} (cfg : RetryConfig) (attempt : Nat) (r : HttpResponse α) : Nat :=
  max (min (retrySecs r * 1000) cfg.maxDelayMs) (expDelay cfg attempt)

/-- The message of the error thrown when retries are exhausted
(readwise-client.ts lines 83-86). -/
def rateLimitMsg (maxRetries retryAfterSeconds : Nat) : String :=
  "Rate limit exceeded after " ++ toString maxRetries ++ " retries. " ++
  "Please wait " ++ toString retryAfterSeconds ++ " seconds before trying again."

/-- The retry loop of `makeRequest` (readwise-client.ts lines 47-94).
`attempt` is the current loop index and `fuel` the number of loop
iterations still allowed after this one (so the loop body runs at most
`fuel + 1` times, matching `for (attempt = 0; attempt <= maxRetries; ...)`
with `fuel = maxRetries - attempt`; the retry guard `attempt < maxRetries`
is exactly `fuel ≠ 0`).  Returns the outcome, the number of requests
issued, and the list of realized waits in milliseconds. -/
def mrRun {α : Type} (cfg : RetryConfig) (fetch : Nat → HttpResponse α)
    (attempt : Nat) (fuel : Nat) : MakeResult α × Nat × List Nat :=
  let r := fetch attempt
  if r.ok then
    if r.status = 204 then (MakeResult.success none, 1, [])
    else (MakeResult.success (some r.payload), 1, [])
  else if r.status = 429 then
    match fuel with
    | 0 => (MakeResult.rateLimited (rateLimitMsg cfg.maxRetries (retrySecs r)), 1, [])
    | fuel' + 1 =>
      let rest := mrRun cfg fetch (attempt + 1) fuel'
      (rest.1, rest.2.1 + 1, waitTime cfg attempt r :: rest.2.2)
  else (MakeResult.apiError r.status r.statusText r.bodyText, 1, [])

/-- Method `makeRequest` (readwise-client.ts lines 40-95): runs the retry loop from
attempt 0 with `maxRetries` further iterations allowed. -/
def makeRequest {α : Type} (cfg : RetryConfig) (fetch : Nat → HttpResponse α) :
    MakeResult α × Nat × List Nat :=
  mrRun cfg fetch 0 cfg.maxRetries

/-- A concrete 429 response whose Retry-After (120 s) exceeds `maxDelayMs`. -/
def cexResponse429 : HttpResponse Unit :=
  { status := 429, statusText := "Too Many Requests", bodyText := "rate limited",
    retryAfter := some 120, payload := () }

/-- A concrete 429 response whose Retry-After (30 s) fits below `maxDelayMs`. -/
def cexResponse30 : HttpResponse Unit :=
  { status := 429, statusText := "Too Many Requests", bodyText := "rate limited",
    retryAfter := some 30, payload := () }

/-- JS truthiness of an optional string (`''` and `undefined` are falsy). -/
def truthyStr : Option String → Bool
  | some s => s != ""
  | none => false

/-- JS truthiness of an optional boolean. -/
def truthyB : Option Bool → Bool
  | some b => b
  | none => false

/-- JS truthiness of an optional number (`0` and `undefined` are falsy). -/
def truthyNat : Option Nat → Bool
  | some n => n != 0
  | none => false

/-- The fields of a `ReadwiseDocument` (types.ts) that the verified code
paths read.  String fields that the source only ever tests for truthiness
are plain `String`s with `""` standing for absent; `saved_at` is an optional
integer timestamp (the source parses it with `new Date` and only compares
the result).  The remaining metadata fields (author, source, location,
tags, word count and the other timestamps) are copied verbatim by the
handler and play no role in any verified claim, so they are not
modelled. -/
structure ReadwiseDocument where
  id : String
  url : String
  title : String
  category : String
  source_url : String
  html_content : String
  saved_at : Option Int
  deriving DecidableEq, Repr

/-- The fields of `ListDocumentsParams` (types.ts) that the verified code
paths read or rewrite.  `addedAfter` is modelled as an already-parsed
timestamp (the source keeps the raw date string and parses it with
`new Date`).  The pass-through filter fields (location, category, tag, ...)
are never inspected by the verified code and are not modelled. -/
structure ListDocumentsParams where
  limit : Option Nat
  pageCursor : Option String
  withFullContent : Option Bool
  withHtmlContent : Option Bool
  addedAfter : Option Int
  deriving DecidableEq, Repr

/-- Structure `ListDocumentsResponse` (types.ts): one page returned by `GET /list/`. -/
structure ListDocumentsResponse where
  count : Nat
  nextPageCursor : Option String
  results : List ReadwiseDocument
  deriving DecidableEq, Repr

/-- The kind of an `APIMessage` (types.ts): `'info' | 'error'`. -/
inductive MessageType where
  | info
  | error
  deriving DecidableEq, Repr

/-- Structure `APIMessage` (types.ts). -/
structure APIMessage where
  type : MessageType
  content : String
  deriving DecidableEq, Repr

/-- Structure `APIResponse<T>` (types.ts): a payload plus an optional message list. -/
structure APIResponse (α : Type) where
  data : α
  messages : Option (List APIMessage)
  deriving DecidableEq, Repr

/-- The count-check parameters of `listDocuments` (readwise-client.ts lines
125-127): the original parameters with both content flags deleted. -/
def stripContentFlags (p : ListDocumentsParams) : ListDocumentsParams :=
  { p with withFullContent := none, withHtmlContent := none }

/-- The INFO message attached when `5 < count ≤ 20`
(readwise-client.ts lines 159-163). -/
def truncInfoMsg (count : Nat) : APIMessage :=
  { type := MessageType.info,
    content :=
      "Found " ++ toString count ++
      " documents, but only returning the first 5 due to full content request. " ++
      "To get the remaining " ++ toString (count - 5) ++
      " documents with full content, " ++
      "you can fetch them individually by their IDs using the update/read document API." }

/-- The ERROR message attached when `count > 20`
(readwise-client.ts lines 165-168). -/
def truncErrorMsg (count : Nat) : APIMessage :=
  { type := MessageType.error,
    content :=
      "Found " ++ toString count ++
      " documents, but only returning the first 5 due to full content request. " ++
      "Getting full content for more than 20 documents is not supported due to performance limitations." }

/-- Method `listDocuments` (readwise-client.ts lines 122-188), abstracted over the
remote service `server` (the composition of URL building, `makeRequest` and
JSON decoding for a successful `GET /list/`).  Returns the `APIResponse`
together with the trace of parameter sets sent over the wire, in order. -/
def listDocuments (server : ListDocumentsParams → ListDocumentsResponse)
    (params : ListDocumentsParams) :
    APIResponse ListDocumentsResponse × List ListDocumentsParams :=
  if truthyB params.withFullContent then
    let countParams := stripContentFlags params
    let countResponse := server countParams
    if 5 < countResponse.count then
      let limitedParams := { params with limit := some 5 }
      let result := server limitedParams
      let message :=
        if countResponse.count ≤ 20 then truncInfoMsg countResponse.count
        else truncErrorMsg countResponse.count
      ({ data := result, messages := some [message] }, [countParams, limitedParams])
    else
      ({ data := server params, messages := none }, [countParams, params])
  else
    ({ data := server params, messages := none }, [params])

/-- The `fetchParams` construction of the aggregation loops
(document-handlers.ts lines 53-56, readwise-client.ts lines 216-223): the
cursor is written into the parameters only when truthy. -/
def withCursor (base : ListDocumentsParams) (cursor : Option String) :
    ListDocumentsParams :=
  if truthyStr cursor then { base with pageCursor := cursor } else base

/-- The page one aggregation step observes: `listDocuments` of the base
parameters with the cursor installed. -/
def pageFetch (server : ListDocumentsParams → ListDocumentsResponse)
    (base : ListDocumentsParams) (cursor : Option String) : ListDocumentsResponse :=
  (listDocuments server (withCursor base cursor)).1.data

/-- The pagination aggregation loop (document-handlers.ts lines 49-61 and
readwise-client.ts lines 212-228): a do/while that fetches a page, appends
its results, and continues while `nextPageCursor` is truthy.  `fuel` bounds
the number of iterations (the source has no such bound and may diverge on a
server that never stops returning cursors; `none` is returned when `fuel`
iterations do not reach the final page).  Returns the concatenated results,
the number of page fetches performed, and the trace of parameter sets
issued. -/
def paginate (server : ListDocumentsParams → ListDocumentsResponse)
    (base : ListDocumentsParams) (cursor : Option String) (fuel : Nat) :
    Option (List ReadwiseDocument × Nat × List ListDocumentsParams) :=
  match fuel with
  | 0 => none
  | fuel' + 1 =>
    let r := listDocuments server (withCursor base cursor)
    if truthyStr r.1.data.nextPageCursor then
      match paginate server base r.1.data.nextPageCursor fuel' with
      | none => none
      | some (docs, n, tr) => some (r.1.data.results ++ docs, n + 1, r.2 ++ tr)
    else some (r.1.data.results, 1, r.2)

/-- A finite cursor chain: `pages` is exactly the sequence of pages the
fetch function yields starting from `cursor`, each non-final page carrying a
truthy `nextPageCursor` linking to the next, and the final page a falsy
one. -/
def isChain (fetch : Option String → ListDocumentsResponse) :
    Option String → List ListDocumentsResponse → Bool
  | _, [] => false
  | c, p :: ps =>
    fetch c == p &&
    match ps with
    | [] => !truthyStr p.nextPageCursor
    | _ :: _ => truthyStr p.nextPageCursor && isChain fetch p.nextPageCursor ps

/-- The base parameters of `searchDocumentsByTopic`'s aggregation loop
(readwise-client.ts lines 216-219). -/
def searchBaseParams : ListDocumentsParams :=
  { limit := none, pageCursor := none, withFullContent := some false,
    withHtmlContent := some false, addedAfter := none }

/-- Condition `!doc.category || doc.category === 'article' || doc.category === 'pdf'`
(document-handlers.ts line 103). -/
def shouldUseJina (category : String) : Bool :=
  category == "" || category == "article" || category == "pdf"

/-- Expression `doc.source_url || doc.url` (document-handlers.ts lines 105 and 114). -/
def fallbackUrl (d : ReadwiseDocument) : String :=
  if d.source_url != "" then d.source_url else d.url

/-- The per-document content hydration (document-handlers.ts lines 98-119)
for the case `shouldIncludeContent = true`, abstracted over the external
collaborators `convertUrlToText` (`conv`, taking the URL and the category
hint) and `extractTextFromHtml` (`ext`). -/
def hydrate (conv : String → String → String) (ext : String → String)
    (d : ReadwiseDocument) : String :=
  if d.html_content != "" then
    if shouldUseJina d.category then
      (if fallbackUrl d != "" then conv (fallbackUrl d) d.category else "")
    else ext d.html_content
  else
    if fallbackUrl d != "" then conv (fallbackUrl d) d.category else ""

/-- The record built for each returned document (document-handlers.ts lines
121-153), restricted to the modelled fields; `content` and `html_content`
are `Option`s because the source attaches those keys conditionally. -/
structure OutDoc where
  id : String
  url : String
  title : String
  category : String
  source_url : String
  saved_at : Option Int
  content : Option String
  html_content : Option String
  deriving DecidableEq, Repr

/-- Builds one output record (document-handlers.ts lines 95-155): `content`
is attached iff `withFullContent === true`, `html_content` iff
`withHtmlContent` is truthy and the document carries inline markup. -/
def buildOutDoc (conv : String → String → String) (ext : String → String)
    (params : ListDocumentsParams) (d : ReadwiseDocument) : OutDoc :=
  { id := d.id, url := d.url, title := d.title, category := d.category,
    source_url := d.source_url, saved_at := d.saved_at,
    content :=
      if params.withFullContent == some true then some (hydrate conv ext d)
      else none,
    html_content :=
      if truthyB params.withHtmlContent && d.html_content != "" then
        some d.html_content
      else none }

/-- Statement `if (params.withFullContent === true) params.withHtmlContent = true`
(document-handlers.ts lines 31-33). -/
def effParams (args : ListDocumentsParams) : ListDocumentsParams :=
  if args.withFullContent == some true then { args with withHtmlContent := some true }
  else args

/-- The `saved_at` filter predicate of `handleListDocuments`
(document-handlers.ts lines 64-68 and 81-85): strictly after the
`addedAfter` date; documents lacking `saved_at` are excluded. -/
def savedAfter (addedAfterDate : Int) (d : ReadwiseDocument) : Bool :=
  match d.saved_at with
  | none => false
  | some t => addedAfterDate < t

/-- The INFO message disclosing client-side filtering
(document-handlers.ts lines 168-173). -/
def clientFilterMsg : APIMessage :=
  { type := MessageType.info,
    content :=
      "Documents were filtered client-side based on the addedAfter date. " ++
      "All documents were fetched from the API first, then filtered by their saved_at date." }

/-- The structured content of `handleListDocuments`' response
(document-handlers.ts lines 159-177), before JSON serialization. -/
structure HandlerOut where
  count : Nat
  nextPageCursor : Option String
  documents : List OutDoc
  messages : List APIMessage
  deriving DecidableEq, Repr

/-- Handler `handleListDocuments` (document-handlers.ts lines 26-187), abstracted
over the remote service and the content converters; `fuel` bounds the
pagination loop as in `paginate`.  Returns the structured response and the
trace of parameter sets issued. -/
def handleListDocuments (server : ListDocumentsParams → ListDocumentsResponse)
    (conv : String → String → String) (ext : String → String)
    (args : ListDocumentsParams) (fuel : Nat) :
    Option (HandlerOut × List ListDocumentsParams) :=
  let params := effParams args
  match params.addedAfter with
  | some addedAfterDate =>
    let apiParams := { params with addedAfter := none }
    if !truthyStr apiParams.pageCursor && !truthyNat apiParams.limit then
      match paginate server apiParams none fuel with
      | none => none
      | some (allDocuments, _, tr) =>
        let filteredDocuments := allDocuments.filter (savedAfter addedAfterDate)
        some ({ count := filteredDocuments.length, nextPageCursor := none,
                documents := filteredDocuments.map (buildOutDoc conv ext params),
                messages := [clientFilterMsg] }, tr)
    else
      let r := listDocuments server apiParams
      let filteredDocuments := r.1.data.results.filter (savedAfter addedAfterDate)
      some ({ count := filteredDocuments.length,
              nextPageCursor := r.1.data.nextPageCursor,
              documents := filteredDocuments.map (buildOutDoc conv ext params),
              messages := (r.1.messages.getD []) ++ [clientFilterMsg] }, r.2)
  | none =>
    let r := listDocuments server params
    some ({ count := r.1.data.count, nextPageCursor := r.1.data.nextPageCursor,
            documents := r.1.data.results.map (buildOutDoc conv ext params),
            messages := r.1.messages.getD [] }, r.2)

/-- Constant `CONCURRENCY_LIMIT` (document-handlers.ts line 238). -/
def CONCURRENCY_LIMIT : Nat := 5

/-- Recursion worker for `toBatches`; `fuel` only drives structural
termination and never runs out when it starts at `ids.length` (each step
consumes at least one element). -/
def toBatchesAux : Nat → List String → List (List String)
  | _, [] => []
  | 0, _ :: _ => []
  | fuel + 1, a :: l =>
    (a :: l).take CONCURRENCY_LIMIT :: toBatchesAux fuel ((a :: l).drop CONCURRENCY_LIMIT)

/-- The batching of `handleBulkDelete` (document-handlers.ts lines 239-240):
`ids.slice(i, i + CONCURRENCY_LIMIT)` for `i = 0, 5, 10, ...`. -/
def toBatches (ids : List String) : List (List String) :=
  toBatchesAux ids.length ids

/-- The per-identifier record of `handleBulkDelete` (document-handlers.ts
lines 248-256).  `outcome id = none` models a fulfilled deletion;
`outcome id = some msg` a rejected one whose reason has message `msg`
(`result.reason?.message || 'Unknown error'` turns a falsy message into
`"Unknown error"`). -/
structure DeleteResult where
  id : String
  success : Bool
  error : Option String
  deriving DecidableEq, Repr

/-- One per-identifier result record (document-handlers.ts lines 248-256). -/
def mkDeleteResult (outcome : String → Option String) (id : String) : DeleteResult :=
  match outcome id with
  | none => { id := id, success := true, error := none }
  | some msg =>
    { id := id, success := false,
      error := some (if msg != "" then msg else "Unknown error") }

/-- Handler `handleBulkDelete`'s result collection (document-handlers.ts lines
235-257): sequential batches of at most `CONCURRENCY_LIMIT`, each batch's
outcomes appended in order before the next batch starts. -/
def handleBulkDelete (outcome : String → Option String) (ids : List String) :
    List DeleteResult :=
  ((toBatches ids).map (fun batch => batch.map (mkDeleteResult outcome))).flatten

/-- The summary counts reported by `handleBulkDelete`
(document-handlers.ts lines 259-267): successes and failures. -/
def bulkSummary (results : List DeleteResult) : Nat × Nat :=
  ((results.filter (fun r => r.success)).length,
   (results.filter (fun r => !r.success)).length)

/-! Concrete fixtures used by witnesses and counterexamples. -/

/-- A document saved at time 5. -/
def wDoc1 : ReadwiseDocument :=
  { id := "d1", url := "u1", title := "t1", category := "", source_url := "",
    html_content := "", saved_at := some 5 }

/-- A document saved at time 20. -/
def wDoc2 : ReadwiseDocument :=
  { id := "d2", url := "u2", title := "t2", category := "", source_url := "",
    html_content := "", saved_at := some 20 }

/-- A document with no `saved_at`. -/
def wDoc3 : ReadwiseDocument :=
  { id := "d3", url := "u3", title := "t3", category := "", source_url := "",
    html_content := "", saved_at := none }

/-- First page of a two-page fixture, linking to cursor `"c2"`. -/
def wPage1 : ListDocumentsResponse :=
  { count := 3, nextPageCursor := some "c2", results := [wDoc1, wDoc2] }

/-- Final page of the two-page fixture. -/
def wPage2 : ListDocumentsResponse :=
  { count := 3, nextPageCursor := none, results := [wDoc3] }

/-- A two-page server: cursor `"c2"` selects the final page. -/
def wServer : ListDocumentsParams → ListDocumentsResponse :=
  fun p => if p.pageCursor == some "c2" then wPage2 else wPage1

/-- Caller arguments with only `addedAfter` set (to time 10). -/
def wArgsAfter : ListDocumentsParams :=
  { limit := none, pageCursor := none, withFullContent := none,
    withHtmlContent := none, addedAfter := some 10 }

/-- A concrete URL-to-text converter. -/
def wConv : String → String → String := fun u _ => "CONV:" ++ u

/-- A concrete markup-to-text extractor. -/
def wExt : String → String := fun h => "EXT:" ++ h

/-- An article with inline markup and a source URL. -/
def cDocHtml : ReadwiseDocument :=
  { id := "d", url := "u", title := "t", category := "article",
    source_url := "s", html_content := "<p>hi</p>", saved_at := none }

/-- A one-page server returning the markup-carrying article. -/
def cServerHtml : ListDocumentsParams → ListDocumentsResponse :=
  fun _ => { count := 1, nextPageCursor := none, results := [cDocHtml] }

/-- Caller arguments requesting full content but not raw markup. -/
def cArgsFullOnly : ListDocumentsParams :=
  { limit := none, pageCursor := none, withFullContent := some true,
    withHtmlContent := none, addedAfter := none }

/-- A server whose count query reports 15 matches. -/
def cServer15 : ListDocumentsParams → ListDocumentsResponse :=
  fun _ => { count := 15, nextPageCursor := none, results := [] }

/-- A bulk-delete outcome where exactly identifiers 3 and 9 fail. -/
def wBulkOutcome : String → Option String :=
  fun id => if id == "id3" then some "boom3"
    else if id == "id9" then some "boom9" else none

/-- Twelve identifiers for the bulk-delete witness. -/
def wBulkIds : List String :=
  ["id1", "id2", "id3", "id4", "id5", "id6", "id7", "id8", "id9", "id10",
   "id11", "id12"]

theorem status429_not_ok {α : Type} (r : HttpResponse α) (h : r.status = 429) :
    r.ok = false := by
  simp [HttpResponse.ok, h]

theorem mrRun_all429 {α : Type} (cfg : RetryConfig) (fetch : Nat → HttpResponse α)
    (fuel : Nat) :
    ∀ attempt : Nat,
      (∀ i, attempt ≤ i → i ≤ attempt + fuel → (fetch i).status = 429) →
      (mrRun cfg fetch attempt fuel).1 =
        MakeResult.rateLimited (rateLimitMsg cfg.maxRetries (retrySecs (fetch (attempt + fuel)))) ∧
      (mrRun cfg fetch attempt fuel).2.1 = fuel + 1 := by
  induction fuel with
  | zero =>
    intro attempt h
    have h0 : (fetch attempt).status = 429 := h attempt le_rfl (by omega)
    simp [mrRun, status429_not_ok _ h0, h0]
  | succ n ih =>
    intro attempt h
    have h0 : (fetch attempt).status = 429 := h attempt le_rfl (by omega)
    have ih' := ih (attempt + 1) (fun i h1 h2 => h i (by omega) (by omega))
    have harith : attempt + 1 + n = attempt + (n + 1) := by omega
    rw [harith] at ih'
    simp [mrRun, status429_not_ok _ h0, h0, ih'.1, ih'.2]

/-- Claim C1: if every attempt of a request receives HTTP 429, `makeRequest`
issues exactly `maxRetries + 1` attempts and then fails with the
rate-limit-exceeded error carrying the last known Retry-After value (the
seconds parsed from the final 429 response); the attempt count
`maxRetries + 1` shows no further request is issued after the failure. -/
theorem claim_C1_retry_exhaustion {α : Type} (cfg : RetryConfig)
    (fetch : Nat → HttpResponse α)
    (h : ∀ i, i ≤ cfg.maxRetries → (fetch i).status = 429) :
    (makeRequest cfg fetch).1 =
      MakeResult.rateLimited (rateLimitMsg cfg.maxRetries (retrySecs (fetch cfg.maxRetries))) ∧
    (makeRequest cfg fetch).2.1 = cfg.maxRetries + 1 := by
  have := mrRun_all429 cfg fetch cfg.maxRetries 0 (fun i h1 h2 => h i (by omega))
  simpa [makeRequest] using this

theorem claim_C1_witness :
    (∀ i, i ≤ DEFAULT_RETRY_CONFIG.maxRetries →
      ((fun _ : Nat => (⟨429, "Too Many Requests", "", some 7, ()⟩ : HttpResponse Unit)) i).status = 429) ∧
    (makeRequest DEFAULT_RETRY_CONFIG
        (fun _ => (⟨429, "Too Many Requests", "", some 7, ()⟩ : HttpResponse Unit))).1 =
      MakeResult.rateLimited (rateLimitMsg 3 7) ∧
    (makeRequest DEFAULT_RETRY_CONFIG
        (fun _ => (⟨429, "Too Many Requests", "", some 7, ()⟩ : HttpResponse Unit))).2.1 = 4 :=
  ⟨fun _ _ => rfl,
   (claim_C1_retry_exhaustion DEFAULT_RETRY_CONFIG _ (fun _ _ => rfl)).1,
   (claim_C1_retry_exhaustion DEFAULT_RETRY_CONFIG _ (fun _ _ => rfl)).2⟩

/-- Claim C2, counterexample: with the default configuration, a 429 response
carrying `Retry-After: 120` has a server-specified wait of 120000 ms, which
exceeds the exponential backoff value at attempt 0 (1000 ms), yet the
computed wait is only 60000 ms — not at least the server-specified value,
because the code clamps the Retry-After delay to `maxDelayMs` before taking
the max. -/
theorem claim_C2_counterexample :
    expDelay DEFAULT_RETRY_CONFIG 0 < retrySecs cexResponse429 * 1000 ∧
    ¬ (retrySecs cexResponse429 * 1000 ≤ waitTime DEFAULT_RETRY_CONFIG 0 cexResponse429) := by
  constructor
  · decide
  · decide

/-- Claim C2, amended: for every 429 response, the wait computed before the
next attempt is always at most `maxDelayMs` (unconditionally, including when
the server-specified Retry-After delay itself exceeds `maxDelayMs`); it is
at least the server-specified seconds in milliseconds whenever that value
exceeds the exponential backoff value
`min(baseDelayMs * 2 ^ attempt, maxDelayMs)` AND does not itself exceed
`maxDelayMs`; and the first realized wait of the retry loop is exactly this
computed value whenever the first response is a 429 and at least one retry
remains. -/
theorem claim_C2_amended {α : Type} (cfg : RetryConfig) (attempt : Nat)
    (r : HttpResponse α) (fetch : Nat → HttpResponse α) :
    waitTime cfg attempt r ≤ cfg.maxDelayMs ∧
    (expDelay cfg attempt ≤ retrySecs r * 1000 →
      retrySecs r * 1000 ≤ cfg.maxDelayMs →
      retrySecs r * 1000 ≤ waitTime cfg attempt r) ∧
    ((fetch 0).status = 429 → 0 < cfg.maxRetries →
      (makeRequest cfg fetch).2.2.head? = some (waitTime cfg 0 (fetch 0))) := by
  refine ⟨?_, ?_, ?_⟩
  · exact max_le (min_le_right _ _) (min_le_right _ _)
  · intro _hgt hle
    calc retrySecs r * 1000 = min (retrySecs r * 1000) cfg.maxDelayMs :=
          (min_eq_left hle).symm
      _ ≤ waitTime cfg attempt r := le_max_left _ _
  · intro h429 hretry
    obtain ⟨n, hn⟩ : ∃ n, cfg.maxRetries = n + 1 :=
      ⟨cfg.maxRetries - 1, by omega⟩
    simp [makeRequest, hn, mrRun, status429_not_ok _ h429, h429]

theorem claim_C2_amended_witness :
    waitTime DEFAULT_RETRY_CONFIG 0 cexResponse429 ≤ DEFAULT_RETRY_CONFIG.maxDelayMs ∧
    waitTime DEFAULT_RETRY_CONFIG 0 cexResponse30 ≤ DEFAULT_RETRY_CONFIG.maxDelayMs ∧
    expDelay DEFAULT_RETRY_CONFIG 0 ≤ retrySecs cexResponse30 * 1000 ∧
    retrySecs cexResponse30 * 1000 ≤ DEFAULT_RETRY_CONFIG.maxDelayMs ∧
    retrySecs cexResponse30 * 1000 ≤ waitTime DEFAULT_RETRY_CONFIG 0 cexResponse30 ∧
    ((fun _ : Nat => cexResponse30) 0).status = 429 ∧
    0 < DEFAULT_RETRY_CONFIG.maxRetries ∧
    (makeRequest DEFAULT_RETRY_CONFIG (fun _ : Nat => cexResponse30)).2.2.head? =
      some (waitTime DEFAULT_RETRY_CONFIG 0 cexResponse30) :=
  ⟨(claim_C2_amended DEFAULT_RETRY_CONFIG 0 cexResponse429 (fun _ => cexResponse429)).1,
   (claim_C2_amended DEFAULT_RETRY_CONFIG 0 cexResponse30 (fun _ => cexResponse30)).1,
   by decide, by decide,
   (claim_C2_amended DEFAULT_RETRY_CONFIG 0 cexResponse30
     (fun _ => cexResponse30)).2.1 (by decide) (by decide),
   by decide, by decide,
   (claim_C2_amended DEFAULT_RETRY_CONFIG 0 cexResponse30
     (fun _ => cexResponse30)).2.2 (by decide) (by decide)⟩

/-- Claim C9: a non-2xx response other than 429 fails immediately with the
API error carrying status code, status text and body text, after exactly one
attempt and with no wait; and a 204 response resolves to the empty result
(`success none`) without the body ever being decoded, after exactly one
attempt. -/
theorem claim_C9_immediate {α : Type} (cfg : RetryConfig)
    (fetch : Nat → HttpResponse α) :
    ((fetch 0).ok = false → (fetch 0).status ≠ 429 →
      makeRequest cfg fetch =
        (MakeResult.apiError (fetch 0).status (fetch 0).statusText (fetch 0).bodyText, 1, [])) ∧
    ((fetch 0).status = 204 →
      makeRequest cfg fetch = (MakeResult.success none, 1, [])) := by
  constructor
  · intro hok h429
    rw [makeRequest]
    cases cfg.maxRetries <;> simp [mrRun, hok, h429]
  · intro h204
    have hok : (fetch 0).ok = true := by simp [HttpResponse.ok, h204]
    rw [makeRequest]
    cases cfg.maxRetries <;> simp [mrRun, hok, h204]

theorem claim_C9_witness :
    ((fun _ : Nat => (⟨404, "Not Found", "missing", none, ()⟩ : HttpResponse Unit)) 0).ok = false ∧
    makeRequest DEFAULT_RETRY_CONFIG
        (fun _ : Nat => (⟨404, "Not Found", "missing", none, ()⟩ : HttpResponse Unit)) =
      (MakeResult.apiError 404 "Not Found" "missing", 1, []) ∧
    makeRequest DEFAULT_RETRY_CONFIG
        (fun _ : Nat => (⟨204, "No Content", "", none, ()⟩ : HttpResponse Unit)) =
      (MakeResult.success none, 1, []) :=
  ⟨by decide,
   (claim_C9_immediate DEFAULT_RETRY_CONFIG _).1 (by decide) (by decide),
   (claim_C9_immediate DEFAULT_RETRY_CONFIG _).2 (by decide)⟩

/-- Claim C10: a 429 response with no Retry-After header is treated as
Retry-After 60: the wait-time computation uses 60000 ms (subject to the
`maxDelayMs` clamp), and when retries exhaust on such responses the final
rate-limit error message carries 60 seconds. -/
theorem claim_C10_default_retry_after {α : Type} (cfg : RetryConfig)
    (attempt : Nat) (r : HttpResponse α) (fetch : Nat → HttpResponse α)
    (hr : r.retryAfter = none)
    (hall : ∀ i, i ≤ cfg.maxRetries → (fetch i).status = 429)
    (hlast : (fetch cfg.maxRetries).retryAfter = none) :
    retrySecs r = 60 ∧
    waitTime cfg attempt r = max (min 60000 cfg.maxDelayMs) (expDelay cfg attempt) ∧
    (makeRequest cfg fetch).1 =
      MakeResult.rateLimited (rateLimitMsg cfg.maxRetries 60) := by
  refine ⟨by simp [retrySecs, hr], by simp [waitTime, retrySecs, hr], ?_⟩
  have h := mrRun_all429 cfg fetch cfg.maxRetries 0 (fun i h1 h2 => hall i (by omega))
  have hsecs : retrySecs (fetch (0 + cfg.maxRetries)) = 60 := by
    simp [retrySecs, hlast]
  rw [makeRequest, h.1, hsecs]

theorem claim_C10_witness :
    (⟨429, "Too Many Requests", "", none, ()⟩ : HttpResponse Unit).retryAfter = none ∧
    retrySecs (⟨429, "Too Many Requests", "", none, ()⟩ : HttpResponse Unit) = 60 ∧
    waitTime DEFAULT_RETRY_CONFIG 0 (⟨429, "Too Many Requests", "", none, ()⟩ : HttpResponse Unit) =
      max (min 60000 DEFAULT_RETRY_CONFIG.maxDelayMs) (expDelay DEFAULT_RETRY_CONFIG 0) ∧
    (makeRequest DEFAULT_RETRY_CONFIG
        (fun _ : Nat => (⟨429, "Too Many Requests", "", none, ()⟩ : HttpResponse Unit))).1 =
      MakeResult.rateLimited (rateLimitMsg 3 60) :=
  ⟨rfl,
   (claim_C10_default_retry_after DEFAULT_RETRY_CONFIG 0
     (⟨429, "Too Many Requests", "", none, ()⟩ : HttpResponse Unit)
     (fun _ => (⟨429, "Too Many Requests", "", none, ()⟩ : HttpResponse Unit))
     rfl (fun _ _ => rfl) rfl).1,
   (claim_C10_default_retry_after DEFAULT_RETRY_CONFIG 0
     (⟨429, "Too Many Requests", "", none, ()⟩ : HttpResponse Unit)
     (fun _ => (⟨429, "Too Many Requests", "", none, ()⟩ : HttpResponse Unit))
     rfl (fun _ _ => rfl) rfl).2.1,
   (claim_C10_default_retry_after DEFAULT_RETRY_CONFIG 0
     (⟨429, "Too Many Requests", "", none, ()⟩ : HttpResponse Unit)
     (fun _ => (⟨429, "Too Many Requests", "", none, ()⟩ : HttpResponse Unit))
     rfl (fun _ _ => rfl) rfl).2.2⟩

theorem toBatchesAux_flatten :
    ∀ (fuel : Nat) (ids : List String), ids.length ≤ fuel →
      (toBatchesAux fuel ids).flatten = ids := by
  intro fuel
  induction fuel with
  | zero =>
    intro ids h
    cases ids with
    | nil => rfl
    | cons a l => simp at h
  | succ f ih =>
    intro ids h
    cases ids with
    | nil => rfl
    | cons a l =>
      have hlen : ((a :: l).drop CONCURRENCY_LIMIT).length ≤ f := by
        simp [CONCURRENCY_LIMIT] at h ⊢
        omega
      rw [toBatchesAux, List.flatten_cons, ih _ hlen, List.take_append_drop]

theorem toBatches_flatten (ids : List String) : (toBatches ids).flatten = ids :=
  toBatchesAux_flatten ids.length ids le_rfl

theorem toBatchesAux_le :
    ∀ (fuel : Nat) (ids : List String), ∀ b ∈ toBatchesAux fuel ids,
      b.length ≤ CONCURRENCY_LIMIT := by
  intro fuel
  induction fuel with
  | zero =>
    intro ids b hb
    cases ids <;> simp [toBatchesAux] at hb
  | succ f ih =>
    intro ids b hb
    cases ids with
    | nil => simp [toBatchesAux] at hb
    | cons a l =>
      rw [toBatchesAux] at hb
      rcases List.mem_cons.mp hb with h | h
      · subst h
        rw [List.length_take]
        exact min_le_left _ _
      · exact ih _ b h

theorem handleBulkDelete_eq_map (outcome : String → Option String) (ids : List String) :
    handleBulkDelete outcome ids = ids.map (mkDeleteResult outcome) := by
  rw [handleBulkDelete, ← List.map_flatten, toBatches_flatten]

theorem mkDeleteResult_id (outcome : String → Option String) (i : String) :
    (mkDeleteResult outcome i).id = i := by
  cases h : outcome i <;> simp [mkDeleteResult, h]

theorem mkDeleteResult_success (outcome : String → Option String) (i : String) :
    (mkDeleteResult outcome i).success = (outcome i).isNone := by
  cases h : outcome i <;> simp [mkDeleteResult, h]

/-- Claim C8: bulk delete processes the identifiers in sequential batches of
at most 5, never aborts early, produces exactly one record per identifier
(in order, with exactly the failing identifiers marked failed and carrying
their error messages, as `mkDeleteResult` records them), and the final
summary reports the counts of succeeded and failed deletions. -/
theorem claim_C8_bulk_delete (outcome : String → Option String) (ids : List String) :
    (handleBulkDelete outcome ids).map (fun r => r.id) = ids ∧
    (∀ r ∈ handleBulkDelete outcome ids, r = mkDeleteResult outcome r.id) ∧
    (∀ b ∈ toBatches ids, b.length ≤ 5) ∧
    bulkSummary (handleBulkDelete outcome ids) =
      ((ids.filter (fun i => (outcome i).isNone)).length,
       (ids.filter (fun i => !(outcome i).isNone)).length) := by
  refine ⟨?_, ?_, ?_, ?_⟩
  · rw [handleBulkDelete_eq_map, List.map_map]
    calc ids.map ((fun r : DeleteResult => r.id) ∘ mkDeleteResult outcome)
        = ids.map id := List.map_congr_left (fun i _ => mkDeleteResult_id outcome i)
      _ = ids := List.map_id ids
  · intro r hr
    rw [handleBulkDelete_eq_map] at hr
    obtain ⟨i, _, rfl⟩ := List.mem_map.mp hr
    rw [mkDeleteResult_id]
  · intro b hb
    have := toBatchesAux_le ids.length ids b hb
    simpa [CONCURRENCY_LIMIT] using this
  · rw [handleBulkDelete_eq_map, bulkSummary]
    rw [List.filter_map, List.filter_map, List.length_map, List.length_map]
    have e1 : List.filter ((fun r : DeleteResult => r.success) ∘ mkDeleteResult outcome) ids =
        List.filter (fun i => (outcome i).isNone) ids :=
      List.filter_congr (fun i _ => by simp [Function.comp, mkDeleteResult_success])
    have e2 : List.filter ((fun r : DeleteResult => !r.success) ∘ mkDeleteResult outcome) ids =
        List.filter (fun i => !(outcome i).isNone) ids :=
      List.filter_congr (fun i _ => by simp [Function.comp, mkDeleteResult_success])
    rw [e1, e2]

theorem claim_C8_witness :
    ((handleBulkDelete wBulkOutcome wBulkIds).map (fun r => r.id) = wBulkIds ∧
     (∀ r ∈ handleBulkDelete wBulkOutcome wBulkIds, r = mkDeleteResult wBulkOutcome r.id) ∧
     (∀ b ∈ toBatches wBulkIds, b.length ≤ 5) ∧
     bulkSummary (handleBulkDelete wBulkOutcome wBulkIds) =
       ((wBulkIds.filter (fun i => (wBulkOutcome i).isNone)).length,
        (wBulkIds.filter (fun i => !(wBulkOutcome i).isNone)).length)) ∧
    bulkSummary (handleBulkDelete wBulkOutcome wBulkIds) = (10, 2) ∧
    (toBatches wBulkIds).length = 3 ∧
    (handleBulkDelete wBulkOutcome wBulkIds).filter (fun r => !r.success) =
      [{ id := "id3", success := false, error := some "boom3" },
       { id := "id9", success := false, error := some "boom9" }] :=
  ⟨claim_C8_bulk_delete wBulkOutcome wBulkIds, by decide, by decide, by decide⟩

theorem effParams_addedAfter (args : ListDocumentsParams) :
    (effParams args).addedAfter = args.addedAfter := by
  rw [effParams]; split <;> rfl

theorem effParams_pageCursor (args : ListDocumentsParams) :
    (effParams args).pageCursor = args.pageCursor := by
  rw [effParams]; split <;> rfl

theorem effParams_limit (args : ListDocumentsParams) :
    (effParams args).limit = args.limit := by
  rw [effParams]; split <;> rfl

theorem effParams_withFullContent (args : ListDocumentsParams) :
    (effParams args).withFullContent = args.withFullContent := by
  rw [effParams]; split <;> rfl

/-- Claim C3: with `withFullContent` requested, `listDocuments` first issues
a count-only query with both content flags stripped; if that count is at
most 5 it proceeds to a full query with the original parameters (content
flags honored, no limit-5 truncation) and no advisory message; if the count
is in 6..20 it issues the full-content query truncated to `limit := 5` and
attaches exactly the INFO message naming the remaining `count - 5`
documents; if the count exceeds 20 it issues the same truncated query and
attaches exactly the ERROR-kind message about the >20 limitation, still
returning the truncated results as the successful payload. -/
theorem claim_C3_content_count_guard (server : ListDocumentsParams → ListDocumentsResponse)
    (params : ListDocumentsParams)
    (h : truthyB params.withFullContent = true) :
    ((listDocuments server params).2.head? = some (stripContentFlags params)) ∧
    ((server (stripContentFlags params)).count ≤ 5 →
      listDocuments server params =
        ({ data := server params, messages := none }, [stripContentFlags params, params])) ∧
    (5 < (server (stripContentFlags params)).count →
      (server (stripContentFlags params)).count ≤ 20 →
      listDocuments server params =
        ({ data := server { params with limit := some 5 },
           messages := some [truncInfoMsg (server (stripContentFlags params)).count] },
         [stripContentFlags params, { params with limit := some 5 }])) ∧
    (20 < (server (stripContentFlags params)).count →
      listDocuments server params =
        ({ data := server { params with limit := some 5 },
           messages := some [truncErrorMsg (server (stripContentFlags params)).count] },
         [stripContentFlags params, { params with limit := some 5 }])) := by
  refine ⟨?_, ?_, ?_, ?_⟩
  · by_cases h5 : 5 < (server (stripContentFlags params)).count <;>
      simp [listDocuments, h, h5]
  · intro h5
    have h5' : ¬ 5 < (server (stripContentFlags params)).count := by omega
    simp [listDocuments, h, h5']
  · intro h5 h20
    simp [listDocuments, h, h5, h20]
  · intro h20
    have h5 : 5 < (server (stripContentFlags params)).count := by omega
    have h20' : ¬ (server (stripContentFlags params)).count ≤ 20 := by omega
    simp [listDocuments, h, h5, h20']

theorem claim_C3_witness :
    truthyB cArgsFullOnly.withFullContent = true ∧
    5 < (cServer15 (stripContentFlags cArgsFullOnly)).count ∧
    (cServer15 (stripContentFlags cArgsFullOnly)).count ≤ 20 ∧
    listDocuments cServer15 cArgsFullOnly =
      ({ data := cServer15 { cArgsFullOnly with limit := some 5 },
         messages := some [truncInfoMsg 15] },
       [stripContentFlags cArgsFullOnly, { cArgsFullOnly with limit := some 5 }]) :=
  ⟨by decide, by decide, by decide,
   (claim_C3_content_count_guard cServer15 cArgsFullOnly (by decide)).2.2.1
     (by decide) (by decide)⟩

/-- Claim C7: under a full-content request, a returned document with inline
markup whose category is empty, "article" or "pdf" is hydrated by the
URL-to-text converter applied to `source_url` falling back to `url`
(`fallbackUrl`); one with any other category is hydrated by extracting text
from the inline markup; and a document with no inline markup always falls
back to URL-to-text conversion of `source_url`/`url`.  The hydrated text is
exactly what the returned record carries as its content. -/
theorem claim_C7_hydration (conv : String → String → String) (ext : String → String)
    (params : ListDocumentsParams) (d : ReadwiseDocument) :
    (d.html_content ≠ "" → shouldUseJina d.category = true → fallbackUrl d ≠ "" →
      hydrate conv ext d = conv (fallbackUrl d) d.category) ∧
    (d.html_content ≠ "" → shouldUseJina d.category = false →
      hydrate conv ext d = ext d.html_content) ∧
    (d.html_content = "" → fallbackUrl d ≠ "" →
      hydrate conv ext d = conv (fallbackUrl d) d.category) ∧
    (params.withFullContent = some true →
      (buildOutDoc conv ext params d).content = some (hydrate conv ext d)) := by
  refine ⟨?_, ?_, ?_, ?_⟩
  · intro h1 h2 h3
    simp [hydrate, bne_iff_ne, h1, h2, h3]
  · intro h1 h2
    simp [hydrate, bne_iff_ne, h1, h2]
  · intro h1 h2
    simp [hydrate, bne_iff_ne, h1, h2]
  · intro h1
    simp [buildOutDoc, h1]

theorem claim_C7_witness :
    cDocHtml.html_content ≠ "" ∧ shouldUseJina cDocHtml.category = true ∧
    fallbackUrl cDocHtml ≠ "" ∧ cArgsFullOnly.withFullContent = some true ∧
    hydrate wConv wExt cDocHtml = wConv (fallbackUrl cDocHtml) cDocHtml.category ∧
    (buildOutDoc wConv wExt cArgsFullOnly cDocHtml).content =
      some (hydrate wConv wExt cDocHtml) :=
  ⟨by decide, by decide, by decide, by decide,
   (claim_C7_hydration wConv wExt cArgsFullOnly cDocHtml).1
     (by decide) (by decide) (by decide),
   (claim_C7_hydration wConv wExt cArgsFullOnly cDocHtml).2.2.2 (by decide)⟩

theorem withCursor_addedAfter (base : ListDocumentsParams) (cursor : Option String) :
    (withCursor base cursor).addedAfter = base.addedAfter := by
  rw [withCursor]; split <;> rfl

theorem listDocuments_trace_addedAfter (server : ListDocumentsParams → ListDocumentsResponse)
    (ps : ListDocumentsParams) :
    ∀ q ∈ (listDocuments server ps).2, q.addedAfter = ps.addedAfter := by
  intro q hq
  by_cases h1 : truthyB ps.withFullContent
  · by_cases h2 : 5 < (server (stripContentFlags ps)).count
    · simp [listDocuments, h1, h2] at hq
      rcases hq with rfl | rfl <;> rfl
    · simp [listDocuments, h1, h2] at hq
      rcases hq with rfl | rfl <;> rfl
  · simp [listDocuments, h1] at hq
    subst hq
    rfl

theorem paginate_trace (server : ListDocumentsParams → ListDocumentsResponse)
    (base : ListDocumentsParams) :
    ∀ (fuel : Nat) (cursor : Option String)
      (docs : List ReadwiseDocument) (n : Nat) (tr : List ListDocumentsParams),
      paginate server base cursor fuel = some (docs, n, tr) →
      ∀ p ∈ tr, p.addedAfter = base.addedAfter := by
  intro fuel
  induction fuel with
  | zero =>
    intro cursor docs n tr h
    simp [paginate] at h
  | succ f ih =>
    intro cursor docs n tr h p hp
    by_cases hcur : truthyStr (listDocuments server (withCursor base cursor)).1.data.nextPageCursor
    · cases hrec : paginate server base
          (listDocuments server (withCursor base cursor)).1.data.nextPageCursor f with
      | none => simp [paginate, hcur, hrec] at h
      | some res =>
        obtain ⟨docs', n', tr'⟩ := res
        rw [paginate] at h
        simp only [hcur, if_true, hrec, Option.some.injEq, Prod.mk.injEq] at h
        obtain ⟨-, -, htr⟩ := h
        rw [← htr] at hp
        rcases List.mem_append.mp hp with hmem | hmem
        · exact (listDocuments_trace_addedAfter server _ p hmem).trans
            (withCursor_addedAfter base cursor)
        · exact ih _ _ _ _ hrec p hmem
    · rw [paginate, if_neg hcur] at h
      have htr : tr = (listDocuments server (withCursor base cursor)).2 :=
        (congrArg (fun x => x.2.2) (Option.some.inj h)).symm
      rw [htr] at hp
      exact (listDocuments_trace_addedAfter server _ p hp).trans
        (withCursor_addedAfter base cursor)

theorem paginate_chain (server : ListDocumentsParams → ListDocumentsResponse)
    (base : ListDocumentsParams) :
    ∀ (pages : List ListDocumentsResponse) (cursor : Option String) (fuel : Nat),
      isChain (pageFetch server base) cursor pages = true →
      pages.length ≤ fuel →
      ∃ tr, paginate server base cursor fuel =
        some ((pages.map (fun p => p.results)).flatten, pages.length, tr) := by
  intro pages
  induction pages with
  | nil =>
    intro cursor fuel h _
    simp [isChain] at h
  | cons p ps ih =>
    intro cursor fuel h hf
    obtain ⟨f, rfl⟩ : ∃ f, fuel = f + 1 := ⟨fuel - 1, by simp at hf; omega⟩
    cases ps with
    | nil =>
      simp only [isChain, Bool.and_eq_true, beq_iff_eq, Bool.not_eq_true'] at h
      obtain ⟨hp, hcur⟩ := h
      have hdata : (listDocuments server (withCursor base cursor)).1.data = p := hp
      refine ⟨(listDocuments server (withCursor base cursor)).2, ?_⟩
      rw [paginate]
      simp [hdata, hcur]
    | cons q qs =>
      simp only [isChain, Bool.and_eq_true, beq_iff_eq] at h
      obtain ⟨hp, hcur, hch⟩ := h
      have hch2 : isChain (pageFetch server base) p.nextPageCursor (q :: qs) = true := by
        simp only [isChain, Bool.and_eq_true, beq_iff_eq]
        exact hch
      have hdata : (listDocuments server (withCursor base cursor)).1.data = p := hp
      have hlen : (q :: qs).length ≤ f := by simp at hf ⊢; omega
      obtain ⟨tr', htr'⟩ := ih p.nextPageCursor f hch2 hlen
      refine ⟨(listDocuments server (withCursor base cursor)).2 ++ tr', ?_⟩
      rw [paginate]
      simp [hdata, hcur, htr']

/-- Claim C4: for every finite sequence of pages linked by `nextPageCursor`
values, the pagination aggregation (the loop shared by
`searchDocumentsByTopic` and the `addedAfter` full-fetch path of
`handleListDocuments`) produces exactly the in-order concatenation of the
pages' results, and performs exactly one page fetch per page — so no
further page request is issued once a page's `nextPageCursor` is absent. -/
theorem claim_C4_pagination (server : ListDocumentsParams → ListDocumentsResponse)
    (base : ListDocumentsParams) (cursor : Option String)
    (pages : List ListDocumentsResponse) (fuel : Nat)
    (h : isChain (pageFetch server base) cursor pages = true)
    (hf : pages.length ≤ fuel) :
    (paginate server base cursor fuel).map (fun x => (x.1, x.2.1)) =
      some ((pages.map (fun p => p.results)).flatten, pages.length) := by
  obtain ⟨tr, htr⟩ := paginate_chain server base pages cursor fuel h hf
  rw [htr]
  rfl

theorem claim_C4_witness :
    isChain (pageFetch wServer searchBaseParams) none [wPage1, wPage2] = true ∧
    ([wPage1, wPage2] : List ListDocumentsResponse).length ≤ 2 ∧
    (paginate wServer searchBaseParams none 2).map (fun x => (x.1, x.2.1)) =
      some ((([wPage1, wPage2] : List ListDocumentsResponse).map
        (fun p => p.results)).flatten, 2) :=
  ⟨by decide, by decide,
   claim_C4_pagination wServer searchBaseParams none [wPage1, wPage2] 2
     (by decide) (by decide)⟩

/-- Claim C5: when `addedAfter` is set and neither cursor nor limit is
given, `handleListDocuments` strips `addedAfter` from every parameter set
sent over the wire, fetches the complete result set by pagination, filters
it to exactly the documents whose `saved_at` strictly exceeds the given
date (documents lacking `saved_at` are excluded), reports the filtered
length as the count, and attaches exactly one INFO message disclosing the
client-side filtering. -/
theorem claim_C5_addedAfter (server : ListDocumentsParams → ListDocumentsResponse)
    (conv : String → String → String) (ext : String → String)
    (args : ListDocumentsParams) (a : Int)
    (pages : List ListDocumentsResponse) (fuel : Nat)
    (ha : args.addedAfter = some a)
    (hc : truthyStr args.pageCursor = false)
    (hl : truthyNat args.limit = false)
    (hchain : isChain (pageFetch server { effParams args with addedAfter := none })
      none pages = true)
    (hf : pages.length ≤ fuel) :
    ∃ tr,
      handleListDocuments server conv ext args fuel =
        some ({ count :=
                  (((pages.map (fun p => p.results)).flatten).filter (savedAfter a)).length,
                nextPageCursor := none,
                documents :=
                  (((pages.map (fun p => p.results)).flatten).filter (savedAfter a)).map
                    (buildOutDoc conv ext (effParams args)),
                messages := [clientFilterMsg] }, tr) ∧
      ∀ p ∈ tr, p.addedAfter = none := by
  obtain ⟨tr, htr⟩ := paginate_chain server { effParams args with addedAfter := none }
    pages none fuel hchain hf
  refine ⟨tr, ?_, ?_⟩
  · have ha' : (effParams args).addedAfter = some a := by rw [effParams_addedAfter, ha]
    have h1 : truthyStr
        ({ effParams args with addedAfter := none } : ListDocumentsParams).pageCursor = false := by
      show truthyStr (effParams args).pageCursor = false
      rw [effParams_pageCursor]; exact hc
    have h2 : truthyNat
        ({ effParams args with addedAfter := none } : ListDocumentsParams).limit = false := by
      show truthyNat (effParams args).limit = false
      rw [effParams_limit]; exact hl
    simp only [handleListDocuments, ha', h1, h2, Bool.not_false, Bool.and_self, if_true, htr]
  · intro p hp
    have hpt := paginate_trace server { effParams args with addedAfter := none }
      fuel none ((pages.map (fun p => p.results)).flatten) pages.length tr htr p hp
    simpa using hpt

theorem claim_C5_witness :
    wArgsAfter.addedAfter = some 10 ∧
    truthyStr wArgsAfter.pageCursor = false ∧
    truthyNat wArgsAfter.limit = false ∧
    isChain (pageFetch wServer { effParams wArgsAfter with addedAfter := none })
      none [wPage1, wPage2] = true ∧
    (∃ tr,
      handleListDocuments wServer wConv wExt wArgsAfter 2 =
        some ({ count :=
                  (((([wPage1, wPage2] : List ListDocumentsResponse).map
                    (fun p => p.results)).flatten).filter (savedAfter 10)).length,
                nextPageCursor := none,
                documents :=
                  (((([wPage1, wPage2] : List ListDocumentsResponse).map
                    (fun p => p.results)).flatten).filter (savedAfter 10)).map
                    (buildOutDoc wConv wExt (effParams wArgsAfter)),
                messages := [clientFilterMsg] }, tr) ∧
      ∀ p ∈ tr, p.addedAfter = none) :=
  ⟨rfl, rfl, rfl, by decide,
   claim_C5_addedAfter wServer wConv wExt wArgsAfter 10 [wPage1, wPage2] 2
     rfl rfl rfl (by decide) (by decide)⟩

theorem buildOutDoc_flags (conv : String → String → String) (ext : String → String)
    (params : ListDocumentsParams) (d : ReadwiseDocument) :
    ((buildOutDoc conv ext params d).html_content ≠ none →
      truthyB params.withHtmlContent = true) ∧
    ((buildOutDoc conv ext params d).content ≠ none →
      params.withFullContent = some true) := by
  constructor
  · intro hne
    cases hW : truthyB params.withHtmlContent with
    | false => exact absurd (by simp [buildOutDoc, hW]) hne
    | true => rfl
  · intro hne
    cases hF : params.withFullContent == some true with
    | false => exact absurd (by simp [buildOutDoc, hF]) hne
    | true => exact eq_of_beq hF

theorem effParams_force (args : ListDocumentsParams)
    (h : truthyB (effParams args).withHtmlContent = true) :
    truthyB args.withHtmlContent = true ∨ args.withFullContent = some true := by
  rw [effParams] at h
  by_cases hF : (args.withFullContent == some true) = true
  · exact Or.inr (eq_of_beq hF)
  · rw [if_neg hF] at h
    exact Or.inl h

theorem handleListDocuments_documents (server : ListDocumentsParams → ListDocumentsResponse)
    (conv : String → String → String) (ext : String → String)
    (args : ListDocumentsParams) (fuel : Nat) (out : HandlerOut)
    (tr : List ListDocumentsParams)
    (h : handleListDocuments server conv ext args fuel = some (out, tr)) :
    ∀ d ∈ out.documents, ∃ src, d = buildOutDoc conv ext (effParams args) src := by
  intro d hd
  simp only [handleListDocuments] at h
  split at h
  · split at h
    · split at h
      · exact absurd h (by simp)
      · simp only [Option.some.injEq, Prod.mk.injEq] at h
        rw [← h.1] at hd
        obtain ⟨src, -, rfl⟩ := List.mem_map.mp hd
        exact ⟨src, rfl⟩
    · simp only [Option.some.injEq, Prod.mk.injEq] at h
      rw [← h.1] at hd
      obtain ⟨src, -, rfl⟩ := List.mem_map.mp hd
      exact ⟨src, rfl⟩
  · simp only [Option.some.injEq, Prod.mk.injEq] at h
    rw [← h.1] at hd
    obtain ⟨src, -, rfl⟩ := List.mem_map.mp hd
    exact ⟨src, rfl⟩

/-- Claim C6, counterexample: with `withFullContent := some true` and
`withHtmlContent` not given by the caller, the handler still includes the
raw markup field in the returned record (the handler forces
`withHtmlContent` on whenever full content is requested), so raw markup is
not included only on explicit request. -/
theorem claim_C6_counterexample :
    cArgsFullOnly.withHtmlContent = none ∧
    (handleListDocuments cServerHtml wConv wExt cArgsFullOnly 1).map
        (fun x => x.1.documents.map (fun d => d.html_content)) =
      some [some "<p>hi</p>"] :=
  ⟨rfl, by decide⟩

/-- Claim C6, amended: the hydrated content text field is included in a
returned record only when the caller explicitly requested full content, and
the raw markup field only when the caller requested raw markup OR requested
full content (which forces the raw-markup flag on); when neither flag is
requested, neither field is ever included. -/
theorem claim_C6_amended (server : ListDocumentsParams → ListDocumentsResponse)
    (conv : String → String → String) (ext : String → String)
    (args : ListDocumentsParams) (fuel : Nat) (out : HandlerOut)
    (tr : List ListDocumentsParams)
    (h : handleListDocuments server conv ext args fuel = some (out, tr)) :
    ∀ d ∈ out.documents,
      (d.html_content ≠ none →
        truthyB args.withHtmlContent = true ∨ args.withFullContent = some true) ∧
      (d.content ≠ none → args.withFullContent = some true) ∧
      (args.withFullContent ≠ some true → truthyB args.withHtmlContent = false →
        d.content = none ∧ d.html_content = none) := by
  intro d hd
  obtain ⟨src, rfl⟩ := handleListDocuments_documents server conv ext args fuel out tr h d hd
  refine ⟨?_, ?_, ?_⟩
  · intro hne
    exact effParams_force args ((buildOutDoc_flags conv ext (effParams args) src).1 hne)
  · intro hne
    have := (buildOutDoc_flags conv ext (effParams args) src).2 hne
    rwa [effParams_withFullContent] at this
  · intro hnf hnh
    have hbeq : (args.withFullContent == some true) = false := by
      cases hF : args.withFullContent == some true
      · rfl
      · exact absurd (eq_of_beq hF) hnf
    have hEff : effParams args = args := by
      rw [effParams, hbeq]
      simp
    constructor
    · simp [buildOutDoc, hEff, hbeq]
    · simp [buildOutDoc, hEff, hnh]

theorem claim_C6_amended_witness :
    ((buildOutDoc wConv wExt (effParams cArgsFullOnly) cDocHtml).html_content ≠ none →
      truthyB cArgsFullOnly.withHtmlContent = true ∨
      cArgsFullOnly.withFullContent = some true) ∧
    ((buildOutDoc wConv wExt (effParams cArgsFullOnly) cDocHtml).content ≠ none →
      cArgsFullOnly.withFullContent = some true) ∧
    (cArgsFullOnly.withFullContent ≠ some true →
      truthyB cArgsFullOnly.withHtmlContent = false →
      (buildOutDoc wConv wExt (effParams cArgsFullOnly) cDocHtml).content = none ∧
      (buildOutDoc wConv wExt (effParams cArgsFullOnly) cDocHtml).html_content = none) :=
  claim_C6_amended cServerHtml wConv wExt cArgsFullOnly 1
    { count := 1, nextPageCursor := none,
      documents := [buildOutDoc wConv wExt (effParams cArgsFullOnly) cDocHtml],
      messages := [] }
    [stripContentFlags (effParams cArgsFullOnly), effParams cArgsFullOnly]
    (by decide)
    (buildOutDoc wConv wExt (effParams cArgsFullOnly) cDocHtml)
    (List.mem_singleton.mpr rfl)
